import Mathlib

/-!
Shallow embedding of the Lumina evaluation flow.

Source files modelled:
* `core/ai_tutor.py` — response cleaning (`.replace('```json','').replace('```','').strip()`),
  `generate_evaluation_test`, `get_bulk_explanations` (including its failure mapping).
* `core/views.py` — `submit_evaluation_view`: grading loop, points update,
  explanation merge, persisted `EvaluationResult`.

The external AI service and the JSON decoder are modelled as parameters:
the raw AI text is an `Option String` (`none` = the API call raised), and
`decode` stands for `json.loads` (`none` = `JSONDecodeError`).  A JSON object
of string keys and values (the explanation dict) is modelled as an
association list `List (String × String)`.
-/

namespace Lumina

/-- A generated question as stored in the session blob: `question_text`,
`options` (label/text pairs), `correct_answer` (a label) and `topic`. -/
structure Question where
  question_text : String
  options : List (String × String)
  correct_answer : String
  topic : String
  deriving Repr, DecidableEq

/-- The dict appended to `wrong_answers_for_ai` in `submit_evaluation_view`. -/
structure WrongAnswer where
  question_text : String
  options : List (String × String)
  user_answer : Option String
  correct_answer : String
  deriving Repr, DecidableEq

/-- One entry of `full_results_data` in `submit_evaluation_view`. -/
structure ResultItem where
  question_text : String
  options : List (String × String)
  topic : String
  user_answer : Option String
  correct_answer : String
  is_correct : Bool
  explanation : String
  deriving Repr, DecidableEq

/-- The analysis dict produced by `analyze_user_performance` on success. -/
structure Analysis where
  weakness_summary : String
  detailed_weaknesses : List String
  deriving Repr, DecidableEq

/-- The fields of the persisted `EvaluationResult` row that the flow computes. -/
structure EvaluationResult where
  score : Nat
  total_questions : Nat
  weakness_summary : String
  detailed_weaknesses : List String
  full_results_data : List ResultItem
  deriving Repr, DecidableEq

/-! Response cleaning, the pipeline
`response.text.replace('```json', '').replace('```', '').strip()` applied to
every raw AI text before decoding. -/

/-- Remove all (left-to-right, non-overlapping) occurrences of `pat` from a
char list, exactly as Python's `str.replace(pat, '')` does.  The fuel argument
makes the recursion structural; fuel = length of the list suffices because
each step consumes at least one character. -/
def stripPatFuel (pat : List Char) : Nat → List Char → List Char
  | 0, s => s
  | _ + 1, [] => []
  | fuel + 1, c :: cs =>
    if pat.isPrefixOf (c :: cs) && !pat.isEmpty then
      stripPatFuel pat fuel (List.drop pat.length (c :: cs))
    else
      c :: stripPatFuel pat fuel cs

/-- Python `s.replace(pat, '')` on char lists. -/
def removeAllOcc (pat : String) (s : List Char) : List Char :=
  stripPatFuel pat.toList s.length s

/-- The set of characters Python's `str.strip()` removes (CPython's
`Py_UNICODE_ISSPACE`): tab through carriage return (0x09-0x0D, so also
vertical tab and form feed), the information separators 0x1C-0x1F, space,
next line (0x85), no-break space (0xA0), ogham space mark (0x1680), the
en-quad..hair-space range (0x2000-0x200A), line separator (0x2028),
paragraph separator (0x2029), narrow no-break space (0x202F), medium
mathematical space (0x205F) and ideographic space (0x3000). -/
def pyWhitespace (c : Char) : Bool :=
  (0x09 ≤ c.toNat && c.toNat ≤ 0x0D) ||
  (0x1C ≤ c.toNat && c.toNat ≤ 0x1F) ||
  c.toNat == 0x20 || c.toNat == 0x85 || c.toNat == 0xA0 ||
  c.toNat == 0x1680 ||
  (0x2000 ≤ c.toNat && c.toNat ≤ 0x200A) ||
  c.toNat == 0x2028 || c.toNat == 0x2029 || c.toNat == 0x202F ||
  c.toNat == 0x205F || c.toNat == 0x3000

/-- Python `str.strip()`: drop leading and trailing Python whitespace. -/
def trimChars (s : List Char) : List Char :=
  ((s.dropWhile pyWhitespace).reverse.dropWhile pyWhitespace).reverse

/-- The cleaning pipeline applied to every raw AI response:
`raw.replace('```json', '').replace('```', '').strip()`. -/
def cleanResponse (t : String) : String :=
  String.mk (trimChars (removeAllOcc "```" (removeAllOcc "```json" t.toList)))

/-! Model of `generate_evaluation_test` (ai_tutor.py lines 37-60). -/

/-- User-facing message for an empty cleaned response (ai_tutor.py line 45). -/
def emptyResponseMsg : String := "The AI returned an empty response."

/-- User-facing message for a JSON decode failure (ai_tutor.py line 54). -/
def malformedResponseMsg : String := "The AI returned a malformed response. Please try again."

/-- User-facing message for any other exception (ai_tutor.py line 60). -/
def connectionErrorMsg : String :=
  "There was a problem connecting to the AI service. Please check your API key and try again."

/-- The `(data, error_message)` result of `generate_evaluation_test`.
`raw = none` models the API call itself raising (caught by the generic
`except Exception` handler); otherwise the text is cleaned, checked for
emptiness, and then decoded, `decode` standing for `json.loads`. -/
def generate_evaluation_test {α : Type} (raw : Option String) (decode : String → Option α) :
    Option α × Option String :=
  match raw with
  | none => (none, some connectionErrorMsg)
  | some t =>
    let cleaned := cleanResponse t
    if cleaned = "" then
      (none, some emptyResponseMsg)
    else
      match decode cleaned with
      | some d => (some d, none)
      | none => (none, some malformedResponseMsg)

/-! Model of `get_bulk_explanations` (ai_tutor.py lines 90-123). -/

/-- The identical placeholder installed for every wrong answer when the bulk
explanation call fails (ai_tutor.py line 122). -/
def bulkFailurePlaceholder : String :=
  "Sorry, the AI could not generate an explanation for this question at this time."

/-- The failure dictionary built in the `except` branch of
`get_bulk_explanations`: one entry per wrong answer, keyed by its
`question_text`, all values the same placeholder. -/
def buildFailedExplanations (wrong_answers : List WrongAnswer) : List (String × String) :=
  wrong_answers.map fun a => (a.question_text, bulkFailurePlaceholder)

/-- Model of `get_bulk_explanations`: call the AI (`raw`), clean and decode its
text; any failure (the call raising, or `json.loads` raising) falls back to
the failure dictionary. -/
def get_bulk_explanations (wrong_answers : List WrongAnswer) (raw : Option String)
    (decode : String → Option (List (String × String))) : List (String × String) :=
  match raw with
  | none => buildFailedExplanations wrong_answers
  | some t =>
    match decode (cleanResponse t) with
    | some m => m
    | none => buildFailedExplanations wrong_answers

/-! Model of `submit_evaluation_view` (views.py lines 120-201). -/

/-- Python dict lookup `m[k]` as an `Option`, on the association-list model of
a dict; `.get(k, default)` is `(lookupExpl m k).getD default`. -/
def lookupExpl (m : List (String × String)) (k : String) : Option String :=
  (m.find? fun p => p.1 == k).map fun p => p.2

/-- The default used by the view when a wrong answer's key is absent from the
explanation dict (views.py line 180). -/
def callerPlaceholder : String :=
  "Sorry, an explanation could not be generated for this question."

/-- The default analysis substituted when `analyze_user_performance` returns a
falsy value (views.py line 171). -/
def defaultAnalysis : Analysis :=
  { weakness_summary := "Analysis could not be generated.", detailed_weaknesses := [] }

/-- The entry appended to `full_results_data` for question `q` with the given
user answer (views.py lines 157-165); `explanation` starts out empty. -/
def mkResultItem (q : Question) (user_answer : Option String) : ResultItem :=
  { question_text := q.question_text
    options := q.options
    topic := q.topic
    user_answer := user_answer
    correct_answer := q.correct_answer
    is_correct := user_answer == some q.correct_answer
    explanation := "" }

/-- The entry appended to `wrong_answers_for_ai` (views.py lines 150-155). -/
def mkWrongAnswer (q : Question) (user_answer : Option String) : WrongAnswer :=
  { question_text := q.question_text
    options := q.options
    user_answer := user_answer
    correct_answer := q.correct_answer }

/-- State of the grading loop: `score`, `points_change`,
`wrong_answers_for_ai`, `full_results_data` (views.py lines 133-137). -/
structure GradeState where
  score : Nat
  points_change : Int
  wrong_answers_for_ai : List WrongAnswer
  full_results_data : List ResultItem
  deriving Repr, DecidableEq

/-- One iteration of the grading loop (views.py lines 139-165), combined with
the state produced by the remaining iterations. -/
def gradeOne (q : Question) (user_answer : Option String) (rest : GradeState) : GradeState :=
  let is_correct := user_answer == some q.correct_answer
  { score := (if is_correct then 1 else 0) + rest.score
    points_change := (if is_correct then 10 else -5) + rest.points_change
    wrong_answers_for_ai :=
      (if is_correct then [] else [mkWrongAnswer q user_answer]) ++ rest.wrong_answers_for_ai
    full_results_data := mkResultItem q user_answer :: rest.full_results_data }

/-- The grading loop from index `i` on; `post i` models
`request.POST.get(f"question_i")` (`none` = field absent from the POST). -/
def processFrom (post : Nat → Option String) : Nat → List Question → GradeState
  | _, [] => { score := 0, points_change := 0, wrong_answers_for_ai := [], full_results_data := [] }
  | i, q :: qs => gradeOne q (post i) (processFrom post (i + 1) qs)

/-- The whole grading loop of `submit_evaluation_view`. -/
def processAnswers (questions : List Question) (post : Nat → Option String) : GradeState :=
  processFrom post 0 questions

/-- The merge loop (views.py lines 177-181): every non-correct entry gets
`all_explanations.get(question_text, callerPlaceholder)`; correct entries are
left untouched. -/
def mergeExplanations (all_explanations : List (String × String)) (items : List ResultItem) :
    List ResultItem :=
  items.map fun item =>
    if item.is_correct then item
    else { item with
            explanation := (lookupExpl all_explanations item.question_text).getD callerPlaceholder }

/-- Model of `submit_evaluation_view` after the answers are read: grade, apply
the points change to the user's cumulative points, fill in the default
analysis if the analysis call failed, merge explanations, and build the
persisted `EvaluationResult`.  `analysisResp` models the return of
`analyze_user_performance` (`none` = falsy) and `all_explanations` the dict
returned by `get_bulk_explanations`.  The first component of the result is
the user's new cumulative points. -/
def submit_evaluation_view (questions : List Question) (post : Nat → Option String)
    (analysisResp : Option Analysis) (all_explanations : List (String × String))
    (userPoints : Int) : Int × EvaluationResult :=
  let st := processAnswers questions post
  let analysis := analysisResp.getD defaultAnalysis
  let merged := mergeExplanations all_explanations st.full_results_data
  (userPoints + st.points_change,
    { score := st.score
      total_questions := questions.length
      weakness_summary := analysis.weakness_summary
      detailed_weaknesses := analysis.detailed_weaknesses
      full_results_data := merged })

/-! Specification-side counts of correct and wrong answers. -/

/-- Number of questions from index `i` on whose user answer equals the
question's `correct_answer`. -/
def countCorrectFrom (post : Nat → Option String) : Nat → List Question → Nat
  | _, [] => 0
  | i, q :: qs =>
    (if post i == some q.correct_answer then 1 else 0) + countCorrectFrom post (i + 1) qs

/-- Number of questions from index `i` on whose user answer does not equal the
question's `correct_answer`. -/
def countWrongFrom (post : Nat → Option String) : Nat → List Question → Nat
  | _, [] => 0
  | i, q :: qs =>
    (if post i == some q.correct_answer then 0 else 1) + countWrongFrom post (i + 1) qs

/-- Number of correctly answered questions of a submission. -/
def countCorrect (questions : List Question) (post : Nat → Option String) : Nat :=
  countCorrectFrom post 0 questions

/-- Number of incorrectly answered questions of a submission. -/
def countWrong (questions : List Question) (post : Nat → Option String) : Nat :=
  countWrongFrom post 0 questions

/-- A sample question used by concrete witnesses and counterexamples. -/
def qEx : Question :=
  { question_text := "Q1", options := [("A", "x"), ("B", "y")], correct_answer := "A",
    topic := "Lexis" }

/-- A sample wrong answer used by concrete witnesses. -/
def wEx : WrongAnswer :=
  { question_text := "Q1", options := [("A", "x"), ("B", "y")], user_answer := none,
    correct_answer := "A" }

/-! Lemmas about the grading loop. -/

/-- The loop's `points_change` is the reward total minus the penalty total. -/
theorem processFrom_points (post : Nat → Option String) :
    ∀ (qs : List Question) (i : Nat),
      (processFrom post i qs).points_change
        = 10 * (countCorrectFrom post i qs : Int) - 5 * (countWrongFrom post i qs : Int)
  | [], i => by simp [processFrom, countCorrectFrom, countWrongFrom]
  | q :: qs, i => by
    have ih := processFrom_points post qs (i + 1)
    by_cases h : post i == some q.correct_answer <;>
      simp [processFrom, gradeOne, countCorrectFrom, countWrongFrom, h, ih] <;>
      omega

/-- The loop's `score` counts the correct answers. -/
theorem processFrom_score (post : Nat → Option String) :
    ∀ (qs : List Question) (i : Nat),
      (processFrom post i qs).score = countCorrectFrom post i qs
  | [], i => by simp [processFrom, countCorrectFrom]
  | q :: qs, i => by
    have ih := processFrom_score post qs (i + 1)
    by_cases h : post i == some q.correct_answer <;>
      simp [processFrom, gradeOne, countCorrectFrom, h, ih]

/-- Every question is counted either correct or wrong. -/
theorem countFrom_sum (post : Nat → Option String) :
    ∀ (qs : List Question) (i : Nat),
      countCorrectFrom post i qs + countWrongFrom post i qs = qs.length
  | [], i => by simp [countCorrectFrom, countWrongFrom]
  | q :: qs, i => by
    have ih := countFrom_sum post qs (i + 1)
    by_cases h : post i == some q.correct_answer <;>
      simp [countCorrectFrom, countWrongFrom, h] <;> omega

/-- The `j`-th entry of the loop's `full_results_data` is the item built from
the `j`-th question and the `j`-th posted answer. -/
theorem processFrom_full_getElem (post : Nat → Option String) :
    ∀ (qs : List Question) (i j : Nat) (h : j < qs.length),
      ((processFrom post i qs).full_results_data)[j]?
        = some (mkResultItem (qs.get ⟨j, h⟩) (post (i + j)))
  | q :: qs, i, 0, h => by simp [processFrom, gradeOne]
  | q :: qs, i, j + 1, h => by
    have ih := processFrom_full_getElem post qs (i + 1) j (by simpa using h)
    have harith : i + 1 + j = i + (j + 1) := by omega
    simp only [processFrom, gradeOne, List.getElem?_cons_succ, List.get]
    rw [ih, harith]

/-- Before the merge, every snapshot entry has an empty explanation. -/
theorem processFrom_expl_empty (post : Nat → Option String) :
    ∀ (qs : List Question) (i : Nat),
      ∀ item ∈ (processFrom post i qs).full_results_data, item.explanation = ""
  | [], i => by simp [processFrom]
  | q :: qs, i => by
    intro item hm
    have ih := processFrom_expl_empty post qs (i + 1)
    simp only [processFrom, gradeOne, List.mem_cons] at hm
    rcases hm with rfl | hm
    · rfl
    · exact ih item hm

/-- A question answered incorrectly contributes its record to
`wrong_answers_for_ai`. -/
theorem processFrom_wrong_mem (post : Nat → Option String) :
    ∀ (qs : List Question) (i j : Nat) (h : j < qs.length),
      post (i + j) ≠ some ((qs.get ⟨j, h⟩).correct_answer) →
      mkWrongAnswer (qs.get ⟨j, h⟩) (post (i + j)) ∈ (processFrom post i qs).wrong_answers_for_ai
  | q :: qs, i, 0, h => by
    intro hne
    have hfalse : (post i == some q.correct_answer) = false := by
      simpa using hne
    simp [processFrom, gradeOne, hfalse]
  | q :: qs, i, j + 1, h => by
    intro hne
    have harith : i + 1 + j = i + (j + 1) := by omega
    have ih := processFrom_wrong_mem post qs (i + 1) j (by simpa using h)
    rw [harith] at ih
    have hmem := ih hne
    simp only [processFrom, gradeOne]
    exact List.mem_append_right _ hmem

/-- A question answered incorrectly makes the wrong count positive. -/
theorem countWrongFrom_pos (post : Nat → Option String) :
    ∀ (qs : List Question) (i j : Nat) (h : j < qs.length),
      post (i + j) ≠ some ((qs.get ⟨j, h⟩).correct_answer) →
      1 ≤ countWrongFrom post i qs
  | q :: qs, i, 0, h => by
    intro hne
    have hfalse : (post i == some q.correct_answer) = false := by simpa using hne
    simp [countWrongFrom, hfalse]
  | q :: qs, i, j + 1, h => by
    intro hne
    have harith : i + 1 + j = i + (j + 1) := by omega
    have ih := countWrongFrom_pos post qs (i + 1) j (by simpa using h)
    rw [harith] at ih
    have hpos := ih hne
    simp only [countWrongFrom]
    omega

/-- If every question is answered correctly, no wrong-answer record is built. -/
theorem processFrom_wrong_nil (post : Nat → Option String) :
    ∀ (qs : List Question) (i : Nat),
      (∀ (j : Nat) (h : j < qs.length), post (i + j) = some ((qs.get ⟨j, h⟩).correct_answer)) →
      (processFrom post i qs).wrong_answers_for_ai = []
  | [], i => by simp [processFrom]
  | q :: qs, i => by
    intro hall
    have h0 := hall 0 (by simp)
    simp only [Nat.add_zero] at h0
    have htrue : (post i == some q.correct_answer) = true := by
      simp [h0, List.get]
    have ih := processFrom_wrong_nil post qs (i + 1) (by
      intro j hj
      have hj1 := hall (j + 1) (by simpa using hj)
      have harith : i + (j + 1) = i + 1 + j := by omega
      rw [harith] at hj1
      simpa using hj1)
    simp [processFrom, gradeOne, htrue, ih]

/-! Claim theorems. -/

/-- C1: for every list of questions and every assignment of user answers, the
points change applied by `submit_evaluation_view` to the user's cumulative
points is (number of correct answers × 10) − (number of incorrect answers × 5),
where an answer is correct iff it equals the question's `correct_answer`;
correct and incorrect answers partition the questions. -/
theorem points_change_eq_reward_minus_penalty (questions : List Question)
    (post : Nat → Option String) (analysisResp : Option Analysis)
    (all_explanations : List (String × String)) (userPoints : Int) :
    (submit_evaluation_view questions post analysisResp all_explanations userPoints).1
      = userPoints
        + (10 * (countCorrect questions post : Int) - 5 * (countWrong questions post : Int))
    ∧ countCorrect questions post + countWrong questions post = questions.length := by
  constructor
  · simp [submit_evaluation_view, processAnswers, countCorrect, countWrong, processFrom_points]
  · exact countFrom_sum post questions 0

/-- C2 counterexample: with one question answered wrongly and the AI
explanation dict mapping its `question_text` to the empty string, the persisted
snapshot contains a wrong answer whose explanation is empty — the view only
substitutes the placeholder when the key is absent, not when its value is
empty. -/
theorem wrong_entry_empty_explanation_from_empty_value :
    ((submit_evaluation_view [qEx] (fun _ => none) none [("Q1", "")]
        0).2.full_results_data.map fun item => (item.is_correct, item.explanation))
      = [(false, "")] := by
  decide

/-- C2 (amended): if every value of the explanation dict is non-empty, then
every wrong answer in the persisted snapshot has a non-empty explanation
(absent keys fall back to the non-empty caller placeholder). -/
theorem wrong_entries_nonempty_expl_when_values_nonempty (questions : List Question)
    (post : Nat → Option String) (analysisResp : Option Analysis)
    (all_explanations : List (String × String)) (userPoints : Int)
    (hvals : ∀ p ∈ all_explanations, p.2 ≠ "") :
    ∀ item ∈ (submit_evaluation_view questions post analysisResp all_explanations
        userPoints).2.full_results_data,
      item.is_correct = false → item.explanation ≠ "" := by
  intro item hm hw
  have hview : (submit_evaluation_view questions post analysisResp all_explanations
      userPoints).2.full_results_data
      = mergeExplanations all_explanations (processAnswers questions post).full_results_data :=
    rfl
  rw [hview] at hm
  simp only [mergeExplanations, List.mem_map] at hm
  obtain ⟨orig, _horig, rfl⟩ := hm
  by_cases hc : orig.is_correct
  · simp [hc] at hw
  · simp only [Bool.not_eq_true] at hc
    simp only [hc, Bool.false_eq_true, if_false]
    cases hlk : lookupExpl all_explanations orig.question_text with
    | none => simp [hlk, callerPlaceholder]
    | some v =>
      simp only [hlk, Option.getD_some, ne_eq]
      obtain ⟨pr, hfind, hv⟩ := Option.map_eq_some'.mp hlk
      have hmem := List.mem_of_find?_eq_some hfind
      rw [← hv]
      exact hvals pr hmem

/-- C2 witness: a concrete wrong answer whose dict value is "ans" keeps a
non-empty explanation. -/
theorem wrong_entries_nonempty_expl_when_values_nonempty_witness :
    ({ question_text := "Q1", options := [("A", "x"), ("B", "y")], topic := "Lexis",
       user_answer := none, correct_answer := "A", is_correct := false,
       explanation := "ans" } : ResultItem).explanation ≠ "" :=
  wrong_entries_nonempty_expl_when_values_nonempty [qEx] (fun _ => none) none [("Q1", "ans")] 0
    (by decide) _ (by decide) rfl

/-- C3 counterexample: the raw text of three backticks is non-empty and not
decodable as JSON, yet `generate_evaluation_test` returns the empty-response
error kind, not the malformed kind, because the text cleans to the empty
string before decoding is reached. -/
theorem nonempty_undecodable_raw_can_yield_empty_kind :
    "```" ≠ ""
    ∧ (fun _ : String => (none : Option Unit)) "```" = none
    ∧ generate_evaluation_test (some "```") (fun _ : String => (none : Option Unit))
        = (none, some emptyResponseMsg)
    ∧ emptyResponseMsg ≠ malformedResponseMsg := by
  refine ⟨by decide, rfl, by decide, by decide⟩

/-- C3 (amended): for every raw AI text whose cleaned form (code fences
stripped, whitespace trimmed) is non-empty and not decodable as JSON,
`generate_evaluation_test` returns the malformed-response error kind; the
model is a total function, so no exception escapes. -/
theorem undecodable_cleaned_text_yields_malformed_kind {α : Type} (raw : String)
    (decode : String → Option α)
    (hne : cleanResponse raw ≠ "") (hdec : decode (cleanResponse raw) = none) :
    generate_evaluation_test (some raw) decode = (none, some malformedResponseMsg) := by
  show (if cleanResponse raw = "" then ((none : Option α), some emptyResponseMsg)
        else
          match decode (cleanResponse raw) with
          | some d => (some d, none)
          | none => (none, some malformedResponseMsg)) = (none, some malformedResponseMsg)
  rw [if_neg hne, hdec]

/-- C3 witness: the undecodable raw text "oops" yields the malformed kind. -/
theorem undecodable_cleaned_text_yields_malformed_kind_witness :
    cleanResponse "oops" ≠ ""
    ∧ generate_evaluation_test (some "oops") (fun _ : String => (none : Option Unit))
        = (none, some malformedResponseMsg) :=
  ⟨by decide,
   undecodable_cleaned_text_yields_malformed_kind "oops" (fun _ => none) (by decide) rfl⟩

/-- C4 counterexample: a fully correct submission (its only answer equals the
correct answer) persists `detailed_weaknesses = ["Weakness one"]` when the
analysis AI returns that list — the view never short-circuits on an empty
wrong-answer list, so the persisted weakness list need not be empty. -/
theorem fully_correct_can_persist_nonempty_weaknesses :
    ((submit_evaluation_view [qEx] (fun _ => some "A")
        (some { weakness_summary := "Summary", detailed_weaknesses := ["Weakness one"] }) []
        0).2.full_results_data.map fun item => item.is_correct) = [true]
    ∧ (submit_evaluation_view [qEx] (fun _ => some "A")
        (some { weakness_summary := "Summary", detailed_weaknesses := ["Weakness one"] }) []
        0).2.detailed_weaknesses = ["Weakness one"]
    ∧ ["Weakness one"] ≠ ([] : List String) := by
  refine ⟨by decide, by decide, by decide⟩

/-- C4 (amended): a fully correct submission sends an empty wrong-answer list
to the analysis AI, and the persisted `detailed_weaknesses` is the default
empty list when the analysis call fails, and exactly the AI's returned list
when it succeeds. -/
theorem fully_correct_submission_characterization (questions : List Question)
    (post : Nat → Option String) (analysisResp : Option Analysis)
    (all_explanations : List (String × String)) (userPoints : Int)
    (hall : ∀ (i : Nat) (h : i < questions.length),
      post i = some ((questions.get ⟨i, h⟩).correct_answer)) :
    (processAnswers questions post).wrong_answers_for_ai = []
    ∧ (analysisResp = none →
        (submit_evaluation_view questions post analysisResp all_explanations
          userPoints).2.detailed_weaknesses = [])
    ∧ ∀ a, analysisResp = some a →
        (submit_evaluation_view questions post analysisResp all_explanations
          userPoints).2.detailed_weaknesses = a.detailed_weaknesses := by
  refine ⟨?_, ?_, ?_⟩
  · exact processFrom_wrong_nil post questions 0 (by
      intro j hj
      simpa using hall j hj)
  · rintro rfl
    simp [submit_evaluation_view, defaultAnalysis]
  · rintro a rfl
    simp [submit_evaluation_view]

/-- C4 witness: a concrete fully correct submission produces an empty
wrong-answer list. -/
theorem fully_correct_submission_characterization_witness :
    (processAnswers [qEx] fun _ => some "A").wrong_answers_for_ai = [] :=
  (fully_correct_submission_characterization [qEx] (fun _ => some "A") none [] 0
    (by decide)).1

/-- C5: for every raw AI text whose cleaned form is the empty string,
`generate_evaluation_test` returns the empty-response error kind; the result
is the same for every decoder, so JSON decoding is never attempted. -/
theorem empty_cleaned_text_yields_empty_kind {α : Type} (raw : String)
    (decode : String → Option α) (he : cleanResponse raw = "") :
    generate_evaluation_test (some raw) decode = (none, some emptyResponseMsg) := by
  show (if cleanResponse raw = "" then ((none : Option α), some emptyResponseMsg)
        else
          match decode (cleanResponse raw) with
          | some d => (some d, none)
          | none => (none, some malformedResponseMsg)) = (none, some emptyResponseMsg)
  rw [if_pos he]

/-- C5 witness: the raw text consisting of a json code-fence marker cleans to
the empty string and yields the empty-response kind, and so does a raw text
consisting of a vertical tab, which Python's `str.strip()` removes. -/
theorem empty_cleaned_text_yields_empty_kind_witness :
    (cleanResponse "```json" = ""
      ∧ generate_evaluation_test (some "```json") (fun _ : String => (none : Option Unit))
          = (none, some emptyResponseMsg))
    ∧ (cleanResponse "\x0b" = ""
      ∧ generate_evaluation_test (some "\x0b") (fun _ : String => (none : Option Unit))
          = (none, some emptyResponseMsg)) :=
  ⟨⟨by decide, empty_cleaned_text_yields_empty_kind "```json" (fun _ => none) (by decide)⟩,
   ⟨by decide, empty_cleaned_text_yields_empty_kind "\x0b" (fun _ => none) (by decide)⟩⟩

/-- C6: for every wrong answer whose `question_text` is absent from the
explanation dict, the view records the caller's fixed placeholder as that
entry's explanation in the persisted snapshot. -/
theorem absent_key_gets_caller_placeholder (questions : List Question)
    (post : Nat → Option String) (analysisResp : Option Analysis)
    (all_explanations : List (String × String)) (userPoints : Int)
    (i : Nat) (item : ResultItem)
    (hi : ((submit_evaluation_view questions post analysisResp all_explanations
        userPoints).2.full_results_data)[i]? = some item)
    (hw : item.is_correct = false)
    (habs : lookupExpl all_explanations item.question_text = none) :
    item.explanation = callerPlaceholder := by
  have hview : (submit_evaluation_view questions post analysisResp all_explanations
      userPoints).2.full_results_data
      = mergeExplanations all_explanations (processAnswers questions post).full_results_data :=
    rfl
  rw [hview, mergeExplanations, List.getElem?_map] at hi
  cases horig : ((processAnswers questions post).full_results_data)[i]? with
  | none => rw [horig] at hi; cases hi
  | some orig =>
    rw [horig] at hi
    simp only [Option.map_some', Option.some_inj] at hi
    by_cases hc : orig.is_correct
    · rw [if_pos hc] at hi
      subst hi
      rw [hc] at hw
      simp at hw
    · rw [if_neg hc] at hi
      subst hi
      have habs' : lookupExpl all_explanations orig.question_text = none := habs
      show (lookupExpl all_explanations orig.question_text).getD callerPlaceholder
        = callerPlaceholder
      rw [habs']
      rfl

/-- C6 witness: with an empty explanation dict, the wrong answer's snapshot
entry carries the caller placeholder. -/
theorem absent_key_gets_caller_placeholder_witness :
    ({ question_text := "Q1", options := [("A", "x"), ("B", "y")], topic := "Lexis",
       user_answer := none, correct_answer := "A", is_correct := false,
       explanation := callerPlaceholder } : ResultItem).explanation = callerPlaceholder :=
  absent_key_gets_caller_placeholder [qEx] (fun _ => none) none [] 0 0 _ (by decide) rfl rfl

/-- C7: whenever the bulk explanation call fails entirely (the API call raises
or its text is undecodable), `get_bulk_explanations` returns the dict whose
keys are exactly the wrong answers' question texts and whose values are all
the same failure placeholder. -/
theorem bulk_failure_placeholder_mapping (wrong_answers : List WrongAnswer)
    (raw : Option String) (decode : String → Option (List (String × String)))
    (hfail : ∀ t, raw = some t → decode (cleanResponse t) = none) :
    ((get_bulk_explanations wrong_answers raw decode).map Prod.fst
        = wrong_answers.map fun a => a.question_text)
    ∧ ∀ p ∈ get_bulk_explanations wrong_answers raw decode, p.2 = bulkFailurePlaceholder := by
  have hres : get_bulk_explanations wrong_answers raw decode
      = buildFailedExplanations wrong_answers := by
    cases raw with
    | none => rfl
    | some t =>
      have ht := hfail t rfl
      show (match decode (cleanResponse t) with
            | some m => m
            | none => buildFailedExplanations wrong_answers) = buildFailedExplanations wrong_answers
      rw [ht]
  rw [hres]
  constructor
  · simp [buildFailedExplanations, List.map_map, Function.comp]
  · intro p hp
    simp only [buildFailedExplanations, List.mem_map] at hp
    obtain ⟨a, _, rfl⟩ := hp
    rfl

/-- C7 witness: the failure dict for one concrete wrong answer has that
answer's question text as its key and the failure placeholder as its value. -/
theorem bulk_failure_placeholder_mapping_witness :
    (((get_bulk_explanations [wEx] none fun _ => none).map Prod.fst)
        = [wEx].map fun a => a.question_text)
    ∧ ∀ p ∈ get_bulk_explanations [wEx] none fun _ => none, p.2 = bulkFailurePlaceholder :=
  bulk_failure_placeholder_mapping [wEx] none (fun _ => none) (by intro t h; cases h)

/-- C8: for every submission and every explanation dict, each correctly
answered question's entry in the persisted snapshot keeps an empty
explanation: the merge touches only wrong-answer entries. -/
theorem correct_entries_keep_empty_explanation (questions : List Question)
    (post : Nat → Option String) (analysisResp : Option Analysis)
    (all_explanations : List (String × String)) (userPoints : Int) :
    ∀ item ∈ (submit_evaluation_view questions post analysisResp all_explanations
        userPoints).2.full_results_data,
      item.is_correct = true → item.explanation = "" := by
  intro item hm hc
  have hview : (submit_evaluation_view questions post analysisResp all_explanations
      userPoints).2.full_results_data
      = mergeExplanations all_explanations (processAnswers questions post).full_results_data :=
    rfl
  rw [hview] at hm
  simp only [mergeExplanations, List.mem_map] at hm
  obtain ⟨orig, horig, rfl⟩ := hm
  by_cases h : orig.is_correct
  · simp only [h, if_true]
    exact processFrom_expl_empty post questions 0 orig horig
  · simp only [Bool.not_eq_true] at h
    simp [h] at hc

/-- C8 witness: a concrete correctly answered question keeps an empty
explanation in the snapshot. -/
theorem correct_entries_keep_empty_explanation_witness :
    ({ question_text := "Q1", options := [("A", "x"), ("B", "y")], topic := "Lexis",
       user_answer := some "A", correct_answer := "A", is_correct := true,
       explanation := "" } : ResultItem).explanation = "" :=
  correct_entries_keep_empty_explanation [qEx] (fun _ => some "A") none [] 0 _ (by decide) rfl

/-- C9: a question with no posted answer is treated as incorrect: its snapshot
entry records `user_answer = none` with `is_correct = false`, its wrong-answer
record (with the missing value) is sent to the AI, and the points change
follows the reward/penalty formula with at least one penalised question. -/
theorem unanswered_question_counts_as_incorrect (questions : List Question)
    (post : Nat → Option String) (analysisResp : Option Analysis)
    (all_explanations : List (String × String)) (userPoints : Int)
    (i : Nat) (h : i < questions.length) (hmiss : post i = none) :
    (∃ item,
        ((submit_evaluation_view questions post analysisResp all_explanations
            userPoints).2.full_results_data)[i]? = some item
        ∧ item.user_answer = none ∧ item.is_correct = false)
    ∧ mkWrongAnswer (questions.get ⟨i, h⟩) none
        ∈ (processAnswers questions post).wrong_answers_for_ai
    ∧ (processAnswers questions post).points_change
        = 10 * (countCorrect questions post : Int) - 5 * (countWrong questions post : Int)
    ∧ 1 ≤ countWrong questions post := by
  have hfull := processFrom_full_getElem post questions 0 i h
  simp only [Nat.zero_add] at hfull
  have hne : post (0 + i) ≠ some ((questions.get ⟨i, h⟩).correct_answer) := by
    simp [Nat.zero_add, hmiss]
  refine ⟨?_, ?_, ?_, ?_⟩
  · refine ⟨{ question_text := (questions.get ⟨i, h⟩).question_text
              options := (questions.get ⟨i, h⟩).options
              topic := (questions.get ⟨i, h⟩).topic
              user_answer := none
              correct_answer := (questions.get ⟨i, h⟩).correct_answer
              is_correct := false
              explanation := (lookupExpl all_explanations
                  (questions.get ⟨i, h⟩).question_text).getD callerPlaceholder }, ?_, rfl, rfl⟩
    show ((mergeExplanations all_explanations
      (processAnswers questions post).full_results_data))[i]? = _
    rw [mergeExplanations, List.getElem?_map, processAnswers, hfull, hmiss]
    simp [mkResultItem]
  · have hmem := processFrom_wrong_mem post questions 0 i h hne
    simpa [Nat.zero_add, hmiss, processAnswers] using hmem
  · exact processFrom_points post questions 0
  · exact countWrongFrom_pos post questions 0 i h hne

/-- C9 witness: a one-question submission with no posted answer has a positive
wrong count (its hypotheses are satisfied by the concrete submission). -/
theorem unanswered_question_counts_as_incorrect_witness :
    1 ≤ countWrong [qEx] fun _ => none :=
  (unanswered_question_counts_as_incorrect [qEx] (fun _ => none) none [] 0 0 (by decide)
    rfl).2.2.2

/-- C10: the persisted score counts the correct answers, `total_questions` is
the number of session questions, and the score never exceeds the total (and,
being a natural number, is never negative). -/
theorem score_counts_correct_answers (questions : List Question)
    (post : Nat → Option String) (analysisResp : Option Analysis)
    (all_explanations : List (String × String)) (userPoints : Int) :
    (submit_evaluation_view questions post analysisResp all_explanations userPoints).2.score
      = countCorrect questions post
    ∧ (submit_evaluation_view questions post analysisResp all_explanations
        userPoints).2.total_questions = questions.length
    ∧ (submit_evaluation_view questions post analysisResp all_explanations userPoints).2.score
      ≤ (submit_evaluation_view questions post analysisResp all_explanations
          userPoints).2.total_questions := by
  have hs : (submit_evaluation_view questions post analysisResp all_explanations
      userPoints).2.score = countCorrect questions post := by
    simp [submit_evaluation_view, processAnswers, countCorrect, processFrom_score]
  have ht : (submit_evaluation_view questions post analysisResp all_explanations
      userPoints).2.total_questions = questions.length := rfl
  have hsum := countFrom_sum post questions 0
  refine ⟨hs, ht, ?_⟩
  rw [hs, ht]
  unfold countCorrect
  omega

end Lumina
